import Mathlib

/-!
Verification of the llm-router reverse proxy (Go sources `main.go`, `utils.go`)
against its natural-language specification.

The Go code is shallowly embedded: pure helpers become Lean functions with the
same names; the retry loop of `handleChatCompletion` becomes a recursive
function over the list of per-attempt upstream behaviours; header maps become
association lists with unique-key semantics for `Set`/`Del`/`Get`; HTTP
statuses are `Nat`; `time.Duration` (an `int64` count of nanoseconds in Go)
is `Int`; response and body bytes are `List Nat`.
-/

set_option autoImplicit false

namespace LlmRouter

/-! ### Go `strings.TrimSpace`

`unicode.IsSpace` for the Latin-1 range: '\t', '\n', '\v', '\f', '\r', ' ',
U+0085 (NEL) and U+00A0 (NBSP).  (Higher code points of the Unicode
White_Space class are omitted; every string the claims evaluate is ASCII.) -/
def goIsSpace (c : Char) : Bool :=
  c.toNat = 9 || c.toNat = 10 || c.toNat = 11 || c.toNat = 12 ||
  c.toNat = 13 || c.toNat = 32 || c.toNat = 133 || c.toNat = 160

/-- Trim `goIsSpace` characters from both ends of a character list. -/
def trimList (l : List Char) : List Char :=
  ((l.dropWhile goIsSpace).reverse.dropWhile goIsSpace).reverse

/-- Go `strings.TrimSpace`. -/
def trimSpace (s : String) : String :=
  String.mk (trimList s.data)

theorem dropWhile_dropWhile_self {α : Type} (p : α → Bool) (l : List α) :
    (l.dropWhile p).dropWhile p = l.dropWhile p := by
  induction l with
  | nil => rfl
  | cons x t ih =>
    by_cases hx : p x = true
    · simp [List.dropWhile, hx, ih]
    · simp at hx
      simp [List.dropWhile, hx]

theorem dropWhile_head_cases {α : Type} (p : α → Bool) (l : List α) :
    l.dropWhile p = [] ∨ ∃ x t, l.dropWhile p = x :: t ∧ p x = false := by
  induction l with
  | nil => exact Or.inl rfl
  | cons x t ih =>
    by_cases hx : p x = true
    · simpa [List.dropWhile, hx] using ih
    · simp at hx
      exact Or.inr ⟨x, t, by simp [List.dropWhile, hx], hx⟩

theorem exists_append_dropWhile {α : Type} (p : α → Bool) (l : List α) :
    ∃ u, l = u ++ l.dropWhile p := by
  induction l with
  | nil => exact ⟨[], rfl⟩
  | cons x t ih =>
    by_cases hx : p x = true
    · obtain ⟨u, hu⟩ := ih
      exact ⟨x :: u, by simp [List.dropWhile, hx]; exact hu⟩
    · simp at hx
      exact ⟨[], by simp [List.dropWhile, hx]⟩

theorem trimList_head_cases (l : List Char) :
    trimList l = [] ∨ ∃ x t, trimList l = x :: t ∧ goIsSpace x = false := by
  unfold trimList
  set a := l.dropWhile goIsSpace with ha
  rcases dropWhile_head_cases goIsSpace l with h | ⟨x, t, hxt, hx⟩
  · left
    rw [← ha] at h
    simp [h]
  · rw [← ha] at hxt
    set d := a.reverse.dropWhile goIsSpace with hd
    obtain ⟨u, hu⟩ := exists_append_dropWhile goIsSpace a.reverse
    rw [← hd] at hu
    have haeq : a = d.reverse ++ u.reverse := by
      have := congrArg List.reverse hu
      simpa using this
    cases hdr : d.reverse with
    | nil => exact Or.inl rfl
    | cons y b =>
      right
      refine ⟨y, b, by simp [← ha, hd, hdr], ?_⟩
      have : a = y :: (b ++ u.reverse) := by simp [haeq, hdr]
      rw [hxt] at this
      have hyx : y = x := by
        injection this with h1 _
        exact h1.symm
      rw [hyx]; exact hx

theorem trimList_idem (l : List Char) : trimList (trimList l) = trimList l := by
  have hdw : (trimList l).dropWhile goIsSpace = trimList l := by
    rcases trimList_head_cases l with h | ⟨x, t, hxt, hx⟩
    · simp [h]
    · simp [hxt, List.dropWhile, hx]
  show ((((trimList l).dropWhile goIsSpace).reverse.dropWhile goIsSpace).reverse) = trimList l
  rw [hdw]
  have hrev : (trimList l).reverse = (l.dropWhile goIsSpace).reverse.dropWhile goIsSpace := by
    simp [trimList]
  rw [hrev, dropWhile_dropWhile_self, ← hrev]
  simp

theorem trimSpace_idem (s : String) : trimSpace (trimSpace s) = trimSpace s := by
  simp [trimSpace, trimList_idem]

/-! ### HTTP header model

`http.Header` is a Go map from (canonical-form) header names to value lists.
We model it as an association list; `Set`, `Del` and lookup follow Go map
semantics.  Keys of interest are already in canonical MIME form in both the
source and the claims, so canonicalization is the identity here. -/
abbrev Header := List (String × List String)

def headerGet : Header → String → Option (List String)
  | [], _ => none
  | p :: t, k => if p.1 = k then some p.2 else headerGet t k

def headerDel : Header → String → Header
  | [], _ => []
  | p :: t, k => if p.1 = k then headerDel t k else p :: headerDel t k

def headerSet (h : Header) (k : String) (v : List String) : Header :=
  headerDel h k ++ [(k, v)]

theorem headerGet_del_self (h : Header) (k : String) :
    headerGet (headerDel h k) k = none := by
  induction h with
  | nil => rfl
  | cons p t ih =>
    by_cases hp : p.1 = k
    · simp [headerDel, hp, ih]
    · simp [headerDel, headerGet, hp, ih]

theorem headerGet_del_ne (h : Header) (k k' : String) (hne : k ≠ k') :
    headerGet (headerDel h k') k = headerGet h k := by
  induction h with
  | nil => rfl
  | cons p t ih =>
    by_cases hp : p.1 = k'
    · have hkk : ¬k' = k := fun hc => hne hc.symm
      simp [headerDel, headerGet, hp, hkk, ih]
    · simp [headerDel, headerGet, hp, ih]

theorem headerGet_append_single (l : Header) (k k' : String) (v : List String) :
    headerGet (l ++ [(k', v)]) k =
      match headerGet l k with
      | some w => some w
      | none => if k' = k then some v else none := by
  induction l with
  | nil => simp [headerGet]
  | cons p t ih =>
    by_cases hp : p.1 = k
    · simp [headerGet, hp]
    · simp [headerGet, hp, ih]

theorem headerGet_set_self (h : Header) (k : String) (v : List String) :
    headerGet (headerSet h k v) k = some v := by
  unfold headerSet
  rw [headerGet_append_single, headerGet_del_self]
  simp

theorem headerGet_set_ne (h : Header) (k k' : String) (v : List String) (hne : k ≠ k') :
    headerGet (headerSet h k' v) k = headerGet h k := by
  unfold headerSet
  rw [headerGet_append_single, headerGet_del_ne h k k' hne]
  cases hg : headerGet h k with
  | some w => rfl
  | none => exact if_neg (fun hc => hne hc.symm)

/-- Keys of a header, in order. -/
def headerKeys (h : Header) : List String := h.map Prod.fst

theorem headerGet_eq_none_of_not_mem_keys (h : Header) (k : String)
    (hk : k ∉ headerKeys h) : headerGet h k = none := by
  induction h with
  | nil => rfl
  | cons p t ih =>
    rw [headerKeys, List.map_cons, List.mem_cons] at hk
    push_neg at hk
    have h1 : ¬p.1 = k := fun hc => hk.1 hc.symm
    simp only [headerGet, if_neg h1]
    exact ih (by rw [headerKeys]; exact hk.2)

/-- From `utils.go`: the hop-by-hop header names stripped before relaying. -/
def hopByHopHeaders : List String :=
  ["Connection", "Proxy-Connection", "Keep-Alive", "Proxy-Authenticate",
   "Proxy-Authorization", "Te", "Trailer", "Transfer-Encoding", "Upgrade"]

/-- Go `stripHopByHopHeaders`: delete each hop-by-hop key. -/
def stripHopByHopHeaders (h : Header) : Header :=
  hopByHopHeaders.foldl headerDel h

/-- Go `copyHeaders`: assign every entry of `src` into `dst` (map semantics). -/
def copyHeaders (dst src : Header) : Header :=
  src.foldl (fun d p => headerSet d p.1 p.2) dst

/-- Go `cloneHeader`: copy into a fresh empty header. -/
def cloneHeader (src : Header) : Header :=
  copyHeaders [] src

theorem headerGet_foldl_del (ks : List String) (h : Header) (k : String) :
    headerGet (ks.foldl headerDel h) k =
      if k ∈ ks then none else headerGet h k := by
  induction ks generalizing h with
  | nil => simp
  | cons k' ks ih =>
    rw [List.foldl_cons, ih]
    by_cases hks : k ∈ ks
    · simp [hks]
    · by_cases hkk : k = k'
      · simp [hks, hkk, headerGet_del_self]
      · simp [hks, hkk, headerGet_del_ne h k k' hkk]

theorem headerGet_strip (h : Header) (k : String) :
    headerGet (stripHopByHopHeaders h) k =
      if k ∈ hopByHopHeaders then none else headerGet h k :=
  headerGet_foldl_del hopByHopHeaders h k

theorem headerGet_foldl_set_not_mem (l : List (String × List String)) (acc : Header)
    (k : String) (hk : k ∉ headerKeys l) :
    headerGet (l.foldl (fun d p => headerSet d p.1 p.2) acc) k = headerGet acc k := by
  induction l generalizing acc with
  | nil => rfl
  | cons p t ih =>
    simp [headerKeys] at hk
    rw [List.foldl_cons, ih _ (by simp [headerKeys, hk.2]),
      headerGet_set_ne acc k p.1 p.2 hk.1]

theorem headerGet_foldl_set (l : List (String × List String)) (acc : Header)
    (k : String) (hnd : (headerKeys l).Nodup) :
    headerGet (l.foldl (fun d p => headerSet d p.1 p.2) acc) k =
      if k ∈ headerKeys l then headerGet l k else headerGet acc k := by
  induction l generalizing acc with
  | nil => simp [headerKeys, headerGet]
  | cons p t ih =>
    rw [headerKeys, List.map_cons, List.nodup_cons] at hnd
    rw [List.foldl_cons, ih _ hnd.2]
    have hmem : (k ∈ headerKeys (p :: t)) ↔ (k = p.1 ∨ k ∈ headerKeys t) := by
      simp [headerKeys]
    by_cases hkt : k ∈ headerKeys t
    · have hkp : ¬p.1 = k := fun hc => hnd.1 (by rw [hc]; exact hkt)
      rw [if_pos hkt, if_pos (hmem.mpr (Or.inr hkt))]
      simp only [headerGet]
      rw [if_neg hkp]
    · by_cases hkp : k = p.1
      · rw [if_neg hkt, if_pos (hmem.mpr (Or.inl hkp))]
        subst hkp
        rw [headerGet_set_self]
        simp [headerGet]
      · rw [if_neg hkt, if_neg (by rw [hmem]; push_neg; exact ⟨hkp, hkt⟩)]
        exact headerGet_set_ne acc k p.1 p.2 hkp

theorem headerGet_cloneHeader (h : Header) (k : String)
    (hnd : (headerKeys h).Nodup) :
    headerGet (cloneHeader h) k = headerGet h k := by
  unfold cloneHeader copyHeaders
  rw [headerGet_foldl_set h [] k hnd]
  by_cases hk : k ∈ headerKeys h
  · simp [hk]
  · simp [hk, headerGet_eq_none_of_not_mem_keys h k hk, headerGet]

/-! ### Buffered responses (`cachedResponse`, `readResponse`, `writeResponse`) -/

/-- Go `cachedResponse`: an immutable snapshot of a completed upstream
response (status, cloned header map, buffered body bytes). -/
structure CachedResponse where
  status : Nat
  header : Header
  body : List Nat
  deriving DecidableEq

/-- What the proxy writes back to the original caller: status line, header
map and body bytes, as produced on a fresh `ResponseWriter`. -/
structure WrittenResponse where
  status : Nat
  header : Header
  body : List Nat
  deriving DecidableEq

/-- Go `writeResponse` (`utils.go`): mirror the cached headers onto the
fresh response writer, strip hop-by-hop headers, delete `Content-Length`,
set it to the buffered body length when the body is non-empty, then write
the status line and the body. -/
def writeResponse (c : CachedResponse) : WrittenResponse :=
  let h := copyHeaders [] c.header
  let h := stripHopByHopHeaders h
  let h := headerDel h "Content-Length"
  let h := if c.body.length > 0
    then headerSet h "Content-Length" [Nat.repr c.body.length]
    else h
  { status := c.status, header := h, body := c.body }

/-! ### JSON payload model (`map[string]interface{}` after `json.Unmarshal`) -/

/-- Decoded JSON values as the Go code discriminates them: strings, booleans,
numbers (`float64` in Go; modelled as `Int`, which is exact on every value the
code compares it with, namely zero) and a catch-all for null/arrays/objects,
which `isStreamRequest` and `extractModelName` treat uniformly. -/
inductive JVal where
  | str (s : String)
  | jbool (b : Bool)
  | num (v : Int)
  | other
  deriving DecidableEq

/-- A decoded JSON object: Go map from field name to value. -/
abbrev Payload := List (String × JVal)

def payloadGet : Payload → String → Option JVal
  | [], _ => none
  | p :: t, k => if p.1 = k then some p.2 else payloadGet t k

/-- Go `isStreamRequest` (`utils.go`): permissive boolean coercion of the
`stream` field.  (`strings.ToLower` is modelled by `String.toLower`, which
agrees with Go on the ASCII strings compared here.) -/
def isStreamRequest (p : Payload) : Bool :=
  match payloadGet p "stream" with
  | none => false
  | some (.jbool b) => b
  | some (.str s) =>
    let l := (trimSpace s).toLower
    l = "true" || l = "1" || l = "yes" || l = "on"
  | some (.num v) => v ≠ 0
  | some .other => false

/-- Go `extractModelName` (`utils.go`): the trimmed `model` field when it is
a string, otherwise the empty string. -/
def extractModelName (p : Payload) : String :=
  match payloadGet p "model" with
  | some (.str s) => trimSpace s
  | _ => ""

/-! ### Attempt planner (`buildAttemptModels`) -/

/-- One step of Go `buildAttemptModels`'s local `add` closure.  The state is
(`seen` set, `out` slice); the model is trimmed, skipped when empty or
already seen, else appended to both. -/
def addModel (st : List String × List String) (model : String) :
    List String × List String :=
  let m := trimSpace model
  if m = "" then st
  else if m ∈ st.1 then st
  else (m :: st.1, st.2 ++ [m])

/-- Go `buildAttemptModels` (`utils.go`): `add(primary)` then `add` over the
fallbacks, returning the accumulated `out` slice.  Pure: no side effects. -/
def buildAttemptModels (primary : String) (fallbacks : List String) : List String :=
  ((primary :: fallbacks).foldl addModel ([], [])).2

/-- Modelled from the spec's words for claim C6 (refinement reference):
first-occurrence deduplication, case-sensitive, with a `seen` accumulator. -/
def dedupFirstAux (seen : List String) : List String → List String
  | [] => []
  | x :: xs =>
    if x ∈ seen then dedupFirstAux seen xs
    else x :: dedupFirstAux (x :: seen) xs

/-- Modelled from the spec's words for claim C6: take the primary followed by
the fallbacks in order, trim whitespace from every entry, drop entries that
become empty, and remove duplicates keeping the first occurrence. -/
def attemptPlanSpec (primary : String) (fallbacks : List String) : List String :=
  dedupFirstAux [] (((primary :: fallbacks).map trimSpace).filter (fun s => s ≠ ""))

/-! ### Timeout policy (`timeoutForAttempt`) -/

/-- Go `map[string]time.Duration` lookup. -/
def lookupTimeout : List (String × Int) → String → Option Int
  | [], _ => none
  | p :: t, k => if p.1 = k then some p.2 else lookupTimeout t k

/-- The configuration struct `proxyConfig` (`main.go`), restricted to the
fields the core logic reads.  Durations are `Int` nanosecond counts; the
no-retry status set is a list; the target URL contributes its host and
scheme. -/
structure ProxyConfig where
  fallbackModels : List String
  defaultTimeout : Int
  fallbackDefaultTimeout : Int
  fallbackTimeouts : List (String × Int)
  noRetryStatuses : List Nat
  targetHost : String
  targetScheme : String
  deriving DecidableEq

/-- Go `timeoutForAttempt` (`main.go`): attempt 0 always uses the global
default; later attempts use the per-model override when present, else the
fallback-wide default when strictly positive, else the global default. -/
def timeoutForAttempt (cfg : ProxyConfig) (idx : Nat) (model : String) : Int :=
  if idx = 0 then cfg.defaultTimeout
  else
    match lookupTimeout cfg.fallbackTimeouts model with
    | some t => t
    | none =>
      if cfg.fallbackDefaultTimeout > 0 then cfg.fallbackDefaultTimeout
      else cfg.defaultTimeout

/-! ### Response classification (`isSuccessStatus`, `isNoRetryStatus`) -/

def isSuccessStatus (status : Nat) : Bool :=
  decide (200 ≤ status) && decide (status < 300)

def isNoRetryStatus (status : Nat) (noRetry : List Nat) : Bool :=
  decide (status ∈ noRetry)

/-! ### Upstream attempt outcomes

One attempt's interaction with the upstream is abstracted by what the
network delivers: a transport error (cancellation or not), or a response
with status, header and body, together with whether buffering the body
(`io.ReadAll` in `readResponse`) fails and how the streaming copy
(`copyStream`) ends when the streaming path is taken. -/

/-- How `copyStream` ends: upstream EOF, the caller's context cancelled
mid-copy, or another write/read error.  All three merely end the handler
(`utils.go` lines 53-73, `main.go` lines 138-145). -/
inductive CopyResult where
  | ok
  | canceled
  | failed
  deriving DecidableEq

structure RespData where
  status : Nat
  header : Header
  body : List Nat
  readErr : Bool
  copy : CopyResult
  deriving DecidableEq

/-- What `doUpstreamRequest` returns for one attempt: an error satisfying
`errors.Is(err, context.Canceled)`, another transport error, or a response. -/
inductive UpstreamResult where
  | canceledErr
  | transportErr
  | resp (r : RespData)
  deriving DecidableEq

/-- One planned attempt as the retry loop sees it: whether
`marshalPayloadWithModel` fails for this candidate, and what the upstream
call delivers. -/
structure AttemptInput where
  marshalFails : Bool
  result : UpstreamResult
  deriving DecidableEq

/-- Go `readResponse` (`utils.go`) on a successfully buffered response:
snapshot status, cloned header, body bytes. -/
def toCached (r : RespData) : CachedResponse :=
  { status := r.status, header := cloneHeader r.header, body := r.body }

/-- Everything the handler can do towards the original caller:
`emitted` is a buffered `writeResponse` replay; `streamed` is the streaming
path (headers mirrored and hop-by-hop-stripped, status line written, body
copied, with the copy's ending recorded); `jsonError` is
`AbortWithStatusJSON(status, gin.H{"error": msg})`; `canceled` is the silent
return on caller cancellation (nothing written). -/
inductive Outcome where
  | emitted (w : WrittenResponse)
  | streamed (status : Nat) (header : Header) (body : List Nat) (copy : CopyResult)
  | jsonError (status : Nat) (msg : String)
  | canceled
  deriving DecidableEq

def isErrorResponse : Outcome → Bool
  | .jsonError _ _ => true
  | _ => false

/-- The retry loop of `handleChatCompletion` (`main.go` lines 109-196),
attempt by attempt, with the upstream behaviour of each planned candidate
given by the input list.  Returns the outcome towards the caller and the
number of upstream dispatches performed (`doUpstreamRequest` calls). -/
def attemptLoop (noRetry : List Nat) (stream : Bool) :
    List AttemptInput → Option CachedResponse → Outcome × Nat
  | [], last =>
    match last with
    | some c => (.emitted (writeResponse c), 0)
    | none => (.jsonError 502 "upstream error", 0)
  | a :: rest, last =>
    if a.marshalFails then (.jsonError 503 "invalid json body", 0)
    else
      match a.result with
      | .canceledErr => (.canceled, 1)
      | .transportErr =>
        let p := attemptLoop noRetry stream rest last
        (p.1, p.2 + 1)
      | .resp r =>
        if stream then
          if isSuccessStatus r.status then
            (.streamed r.status (stripHopByHopHeaders (cloneHeader r.header))
              r.body r.copy, 1)
          else if r.readErr then
            let p := attemptLoop noRetry stream rest last
            (p.1, p.2 + 1)
          else if isNoRetryStatus r.status noRetry then
            (.emitted (writeResponse (toCached r)), 1)
          else
            let p := attemptLoop noRetry stream rest (some (toCached r))
            (p.1, p.2 + 1)
        else
          if r.readErr then
            let p := attemptLoop noRetry stream rest last
            (p.1, p.2 + 1)
          else if isSuccessStatus r.status then
            (.emitted (writeResponse (toCached r)), 1)
          else if isNoRetryStatus r.status noRetry then
            (.emitted (writeResponse (toCached r)), 1)
          else
            let p := attemptLoop noRetry stream rest (some (toCached r))
            (p.1, p.2 + 1)

/-! ### Request reading and the whole handler -/

/-- The inbound body as the handler can observe it: request or body absent,
`io.ReadAll` failing, or the raw bytes. -/
inductive BodyRead where
  | noBody
  | readErr
  | bytes (bs : List Nat)
  deriving DecidableEq

/-- Go `readRequestPayload` (`main.go` lines 198-226).  JSON decoding is
abstracted by the `parse` oracle (`json.Unmarshal`); every early exit is an
`AbortWithStatusJSON` with a single `error` field. -/
def readRequestPayload (parse : List Nat → Option Payload) :
    BodyRead → Except (Nat × String) Payload
  | .noBody => .error (503, "empty request body")
  | .readErr => .error (400, "invalid request body")
  | .bytes bs =>
    if bs.length = 0 then .error (503, "empty request body")
    else
      match parse bs with
      | none => .error (503, "invalid json body")
      | some p => .ok p

/-- Go `handleChatCompletion` (`main.go` lines 88-196): read the payload,
check the model, plan the attempt list, run the retry loop.  The upstream
behaviour of attempt `i` is `attempts i`. -/
def handleChatCompletion (cfg : ProxyConfig) (parse : List Nat → Option Payload)
    (body : BodyRead) (attempts : Nat → AttemptInput) : Outcome × Nat :=
  match readRequestPayload parse body with
  | .error e => (.jsonError e.1 e.2, 0)
  | .ok payload =>
    let stream := isStreamRequest payload
    let modelName := extractModelName payload
    if modelName = "" then (.jsonError 400 "model is required", 0)
    else
      let ms := buildAttemptModels modelName cfg.fallbackModels
      if ms = [] then (.jsonError 400 "no model available", 0)
      else attemptLoop cfg.noRetryStatuses stream
        ((List.range ms.length).map attempts) none

/-! ### Outbound request rewriting (`doUpstreamRequest`, header part) -/

/-- The original inbound request as the dispatcher sees it.  `proto` is the
protocol the client actually used to reach the proxy; the source never reads
it while forwarding. -/
structure InboundRequest where
  header : Header
  host : String
  proto : String
  deriving DecidableEq

/-- Go `doUpstreamRequest` (`main.go` lines 249-255), header rewriting:
clone the inbound headers, strip hop-by-hop headers, delete
`Accept-Encoding`, set `X-Forwarded-Host` to the inbound host and
`X-Forwarded-Proto` to the configured target URL's scheme. -/
def outboundHeader (cfg : ProxyConfig) (orig : InboundRequest) : Header :=
  let h := cloneHeader orig.header
  let h := stripHopByHopHeaders h
  let h := headerDel h "Accept-Encoding"
  let h := headerSet h "X-Forwarded-Host" [orig.host]
  headerSet h "X-Forwarded-Proto" [cfg.targetScheme]

/-- Go `doUpstreamRequest`: `req.Host = cfg.targetURL.Host`. -/
def outboundHost (cfg : ProxyConfig) (_orig : InboundRequest) : String :=
  cfg.targetHost

/-! ### Loop-step characterization -/

/-- An attempt after which the retry loop moves on to the next candidate:
marshalling succeeded, and the upstream interaction was a non-cancellation
transport error, a body-read failure, or a retryable status. -/
def advancesB (noRetry : List Nat) (stream : Bool) (a : AttemptInput) : Bool :=
  !a.marshalFails &&
    match a.result with
    | .canceledErr => false
    | .transportErr => true
    | .resp r =>
      if stream then
        !isSuccessStatus r.status &&
          (r.readErr || !isNoRetryStatus r.status noRetry)
      else
        r.readErr ||
          (!isSuccessStatus r.status && !isNoRetryStatus r.status noRetry)

/-- The `lastResp` slot after an attempt the loop moves past: a fully read
retryable response overwrites it, anything else leaves it unchanged. -/
def nextLast (noRetry : List Nat) (a : AttemptInput)
    (last : Option CachedResponse) : Option CachedResponse :=
  match a.result with
  | .resp r =>
    if !r.readErr && !isSuccessStatus r.status &&
        !isNoRetryStatus r.status noRetry
      then some (toCached r) else last
  | _ => last

theorem attemptLoop_step (noRetry : List Nat) (stream : Bool) (a : AttemptInput)
    (rest : List AttemptInput) (last : Option CachedResponse)
    (ha : advancesB noRetry stream a = true) :
    attemptLoop noRetry stream (a :: rest) last =
      ((attemptLoop noRetry stream rest (nextLast noRetry a last)).1,
       (attemptLoop noRetry stream rest (nextLast noRetry a last)).2 + 1) := by
  obtain ⟨mf, res⟩ := a
  cases mf with
  | true => simp [advancesB] at ha
  | false =>
    cases res with
    | canceledErr => simp [advancesB] at ha
    | transportErr => simp [attemptLoop, nextLast]
    | resp r =>
      cases hst : stream <;> cases hsc : isSuccessStatus r.status <;>
        cases hre : r.readErr <;>
        cases hnr : isNoRetryStatus r.status noRetry <;>
        simp_all [advancesB, attemptLoop, nextLast]

/-- What the loop delivers when it terminates on a fully received response:
the streaming hand-off when streaming was requested and the status is 2xx,
otherwise the buffered `writeResponse` replay of that response. -/
def terminalEmit (stream : Bool) (r : RespData) : Outcome :=
  if stream && isSuccessStatus r.status then
    .streamed r.status (stripHopByHopHeaders (cloneHeader r.header)) r.body r.copy
  else .emitted (writeResponse (toCached r))

/-- Claim C3: in an attempt list whose first `pre.length` candidates all advance
the loop, a candidate whose (fully read) response status is in the no-retry
set ends the loop: the remaining candidates in `rest` are never dispatched
(the dispatch count is `pre.length + 1`), and the caller receives that
candidate's status, headers and body — via `writeResponse` (hop-by-hop
stripping and `Content-Length` recomputation) in the buffered case, or the
streaming hand-off when the request streams and the status is also 2xx. -/
theorem noRetryStatus_short_circuits (noRetry : List Nat) (stream : Bool)
    (pre rest : List AttemptInput) (r : RespData)
    (hadv : ∀ b ∈ pre, advancesB noRetry stream b = true)
    (hnr : isNoRetryStatus r.status noRetry = true)
    (hre : r.readErr = false) (last : Option CachedResponse) :
    attemptLoop noRetry stream (pre ++ ⟨false, .resp r⟩ :: rest) last =
      (terminalEmit stream r, pre.length + 1) := by
  induction pre generalizing last with
  | nil =>
    simp only [List.nil_append, List.length_nil]
    cases hst : stream <;> cases hsc : isSuccessStatus r.status <;>
      simp_all [attemptLoop, terminalEmit]
  | cons b pre ih =>
    have hb := hadv b (by simp)
    rw [List.cons_append, attemptLoop_step noRetry stream b _ last hb,
      ih (fun x hx => hadv x (by simp [hx])) _]
    simp [Nat.add_assoc]

/-- Witness for C3: two candidates, the first a transport error, the second
returning status 400 with the no-retry set `{400}`; the loop stops after the
second dispatch and replays it. -/
theorem noRetryStatus_short_circuits_witness :
    attemptLoop [400] false
      [⟨false, .transportErr⟩,
       ⟨false, .resp ⟨400, [("X-A", ["v"])], [1, 2], false, .ok⟩⟩,
       ⟨false, .resp ⟨200, [], [9], false, .ok⟩⟩] none =
      (terminalEmit false ⟨400, [("X-A", ["v"])], [1, 2], false, .ok⟩, 2) := by
  have h := noRetryStatus_short_circuits [400] false
    [⟨false, .transportErr⟩]
    [⟨false, .resp ⟨200, [], [9], false, .ok⟩⟩]
    ⟨400, [("X-A", ["v"])], [1, 2], false, .ok⟩
    (by decide) (by decide) (by decide) none
  simpa using h

/-- Claim C7: in a streaming request, once a candidate's status is 2xx the loop
commits to streaming that response: the outcome is the streaming hand-off
with that candidate's status, stripped headers and body, no candidate in
`rest` is ever dispatched, and no error response is written, whatever the
copy result `r.copy` is (including mid-flight copy failure, which is only
logged). -/
theorem streaming_commit_is_terminal (noRetry : List Nat)
    (pre rest : List AttemptInput) (r : RespData)
    (hadv : ∀ b ∈ pre, advancesB noRetry true b = true)
    (hsc : isSuccessStatus r.status = true) (last : Option CachedResponse) :
    attemptLoop noRetry true (pre ++ ⟨false, .resp r⟩ :: rest) last =
      (.streamed r.status (stripHopByHopHeaders (cloneHeader r.header))
        r.body r.copy, pre.length + 1) ∧
    isErrorResponse
      (attemptLoop noRetry true (pre ++ ⟨false, .resp r⟩ :: rest) last).1 = false := by
  have hmain : attemptLoop noRetry true (pre ++ ⟨false, .resp r⟩ :: rest) last =
      (.streamed r.status (stripHopByHopHeaders (cloneHeader r.header))
        r.body r.copy, pre.length + 1) := by
    induction pre generalizing last with
    | nil =>
      simp only [List.nil_append, List.length_nil]
      simp [attemptLoop, hsc]
    | cons b pre ih =>
      have hb := hadv b (by simp)
      rw [List.cons_append, attemptLoop_step noRetry true b _ last hb,
        ih (fun x hx => hadv x (by simp [hx])) _]
      simp [Nat.add_assoc]
  exact ⟨hmain, by rw [hmain]; rfl⟩

/-- Witness for C7: one advancing candidate (retryable 500), then a 2xx
streaming candidate whose copy fails mid-flight; the loop still ends in the
streaming outcome after two dispatches, with no error response. -/
theorem streaming_commit_is_terminal_witness :
    attemptLoop [400] true
      [⟨false, .resp ⟨500, [], [], false, .ok⟩⟩,
       ⟨false, .resp ⟨200, [("Connection", ["close"]), ("X-A", ["v"])],
         [7], false, .failed⟩⟩,
       ⟨false, .resp ⟨200, [], [], false, .ok⟩⟩] none =
      (.streamed 200
        (stripHopByHopHeaders
          (cloneHeader [("Connection", ["close"]), ("X-A", ["v"])]))
        [7] .failed, 2) := by
  have h := streaming_commit_is_terminal [400]
    [⟨false, .resp ⟨500, [], [], false, .ok⟩⟩]
    [⟨false, .resp ⟨200, [], [], false, .ok⟩⟩]
    ⟨200, [("Connection", ["close"]), ("X-A", ["v"])], [7], false, .failed⟩
    (by decide) (by decide) none
  simpa using h.1

/-- Claim C8: when an attempt's upstream call fails with the caller-cancellation
error, the whole loop aborts at once: no later candidate is dispatched and
the outcome is `canceled` (nothing written to the caller).  By contrast a
non-cancellation transport error merely advances the loop to the next
candidate. -/
theorem cancellation_aborts_loop (noRetry : List Nat) (stream : Bool)
    (pre rest : List AttemptInput)
    (hadv : ∀ b ∈ pre, advancesB noRetry stream b = true)
    (last : Option CachedResponse) :
    attemptLoop noRetry stream (pre ++ ⟨false, .canceledErr⟩ :: rest) last =
      (.canceled, pre.length + 1) ∧
    attemptLoop noRetry stream (⟨false, .transportErr⟩ :: rest) last =
      ((attemptLoop noRetry stream rest last).1,
       (attemptLoop noRetry stream rest last).2 + 1) := by
  constructor
  · induction pre generalizing last with
    | nil => simp [attemptLoop]
    | cons b pre ih =>
      have hb := hadv b (by simp)
      rw [List.cons_append, attemptLoop_step noRetry stream b _ last hb,
        ih (fun x hx => hadv x (by simp [hx])) _]
      simp [Nat.add_assoc]
  · simp [attemptLoop]

/-- Witness for C8: one advancing candidate then a cancelled attempt; the
loop ends with `canceled` after two dispatches, and a leading transport
error merely advances. -/
theorem cancellation_aborts_loop_witness :
    attemptLoop [400] false
      [⟨false, .transportErr⟩, ⟨false, .canceledErr⟩,
       ⟨false, .resp ⟨200, [], [], false, .ok⟩⟩] none =
      (.canceled, 2) ∧
    attemptLoop [400] false [⟨false, .transportErr⟩] none =
      ((attemptLoop [400] false [] none).1,
       (attemptLoop [400] false [] none).2 + 1) := by
  have h := cancellation_aborts_loop [400] false
    [⟨false, .transportErr⟩]
    [⟨false, .resp ⟨200, [], [], false, .ok⟩⟩]
    (by decide) none
  exact ⟨by simpa using h.1, (cancellation_aborts_loop [400] false [] [] (by simp) none).2⟩

/-- A fully read upstream response that is neither 2xx nor in the no-retry
set: the loop records it and moves on. -/
def retryableResp (noRetry : List Nat) (r : RespData) : Prop :=
  r.readErr = false ∧ isSuccessStatus r.status = false ∧
    isNoRetryStatus r.status noRetry = false

instance (noRetry : List Nat) (r : RespData) : Decidable (retryableResp noRetry r) := by
  unfold retryableResp
  infer_instance

theorem allRetryable_emits_last (noRetry : List Nat) (pre : List RespData)
    (rlast : RespData) (last : Option CachedResponse)
    (h : ∀ x ∈ pre ++ [rlast], retryableResp noRetry x) :
    attemptLoop noRetry false
      ((pre ++ [rlast]).map (fun x => ⟨false, .resp x⟩)) last =
      (.emitted (writeResponse (toCached rlast)), pre.length + 1) := by
  induction pre generalizing last with
  | nil =>
    obtain ⟨h1, h2, h3⟩ := h rlast (by simp)
    simp [attemptLoop, h1, h2, h3]
  | cons x pre ih =>
    obtain ⟨h1, h2, h3⟩ := h x (by simp)
    simp only [List.cons_append, List.map_cons]
    rw [show (⟨false, .resp x⟩ : AttemptInput) ::
        (pre ++ [rlast]).map (fun y => ⟨false, .resp y⟩) =
        (⟨false, .resp x⟩ : AttemptInput) ::
        (pre ++ [rlast]).map (fun y => ⟨false, .resp y⟩) from rfl]
    rw [attemptLoop_step noRetry false ⟨false, .resp x⟩ _ last
      (by simp [advancesB, h1, h2, h3])]
    rw [ih _ (fun y hy => h y (by simp [hy]))]
    simp [Nat.add_assoc]

/-- An attempt that fails before any response can be buffered: a
non-cancellation transport error, or a body-read failure (in streaming mode
the body is only read when the status was not 2xx). -/
def failsWithoutResponse (stream : Bool) (a : AttemptInput) : Bool :=
  !a.marshalFails &&
    match a.result with
    | .canceledErr => false
    | .transportErr => true
    | .resp r => r.readErr && (!stream || !isSuccessStatus r.status)

theorem allFail_emits_502 (noRetry : List Nat) (stream : Bool)
    (as : List AttemptInput)
    (h : ∀ a ∈ as, failsWithoutResponse stream a = true) :
    attemptLoop noRetry stream as none =
      (.jsonError 502 "upstream error", as.length) := by
  induction as with
  | nil => simp [attemptLoop]
  | cons a rest ih =>
    have ha := h a (by simp)
    obtain ⟨mf, res⟩ := a
    simp only [failsWithoutResponse, Bool.and_eq_true, Bool.not_eq_true'] at ha
    obtain ⟨hmf, hres⟩ := ha
    subst hmf
    cases res with
    | canceledErr => simp at hres
    | transportErr => simp [attemptLoop, ih (fun y hy => h y (by simp [hy]))]
    | resp r =>
      cases hst : stream with
      | false =>
        subst hst
        simp only [Bool.and_eq_true] at hres
        simp [attemptLoop, hres.1, ih (fun y hy => h y (by simp [hy]))]
      | true =>
        subst hst
        simp only [Bool.and_eq_true, Bool.not_true, Bool.false_or,
          Bool.not_eq_true'] at hres
        simp [attemptLoop, hres.1, hres.2, ih (fun y hy => h y (by simp [hy]))]

/-- Claim C4: for a non-streaming request, (1) when every candidate returns a fully
read retryable non-2xx status, the caller receives the last candidate's
response (as `writeResponse` replays it), after dispatching all
`pre.length + 1` candidates; (2) when every attempt fails at the transport
or body-read level, so no candidate response is ever buffered, the caller
receives the fixed 502 response with body `{"error": "upstream error"}`. -/
theorem exhausted_candidates_behavior (noRetry : List Nat) :
    (∀ (pre : List RespData) (rlast : RespData) (last : Option CachedResponse),
      (∀ x ∈ pre ++ [rlast], retryableResp noRetry x) →
      attemptLoop noRetry false
        ((pre ++ [rlast]).map (fun x => ⟨false, .resp x⟩)) last =
        (.emitted (writeResponse (toCached rlast)), pre.length + 1)) ∧
    (∀ (stream : Bool) (as : List AttemptInput),
      (∀ a ∈ as, failsWithoutResponse stream a = true) →
      attemptLoop noRetry stream as none =
        (.jsonError 502 "upstream error", as.length)) :=
  ⟨fun pre rlast last h => allRetryable_emits_last noRetry pre rlast last h,
   fun stream as h => allFail_emits_502 noRetry stream as h⟩

/-- Witness for C4: two retryable candidates (500 then 503 under no-retry
set `{400}`) end in a replay of the second; a transport error followed by a
read failure ends in the fixed 502. -/
theorem exhausted_candidates_behavior_witness :
    attemptLoop [400] false
      [⟨false, .resp ⟨500, [("X-A", ["1"])], [1], false, .ok⟩⟩,
       ⟨false, .resp ⟨503, [("X-B", ["2"])], [2], false, .ok⟩⟩] none =
      (.emitted (writeResponse (toCached ⟨503, [("X-B", ["2"])], [2], false, .ok⟩)),
        2) ∧
    attemptLoop [400] false
      [⟨false, .transportErr⟩,
       ⟨false, .resp ⟨500, [], [], true, .ok⟩⟩] none =
      (.jsonError 502 "upstream error", 2) := by
  constructor
  · have h := (exhausted_candidates_behavior [400]).1
      [⟨500, [("X-A", ["1"])], [1], false, .ok⟩]
      ⟨503, [("X-B", ["2"])], [2], false, .ok⟩ none (by decide)
    simpa using h
  · have h := (exhausted_candidates_behavior [400]).2 false
      [⟨false, .transportErr⟩, ⟨false, .resp ⟨500, [], [], true, .ok⟩⟩]
      (by decide)
    simpa using h

/-- Counterexample for C5 as frozen: with the fallback-wide default timeout
set to the nonzero duration -1 (expressible through the configuration, since
Go durations are signed) and no per-model entry, attempt index 1 resolves to
the global default 60, not to the set-and-nonzero fallback-wide default as
the claim's "if it is set (nonzero)" requires: the code tests `> 0`, not
nonzero. -/
theorem timeout_nonzero_counterexample :
    lookupTimeout (ProxyConfig.fallbackTimeouts
      ⟨[], 60, -1, [], [400], "h", "https"⟩) "m" = none ∧
    ProxyConfig.fallbackDefaultTimeout ⟨[], 60, -1, [], [400], "h", "https"⟩ ≠ 0 ∧
    timeoutForAttempt ⟨[], 60, -1, [], [400], "h", "https"⟩ 1 "m" = 60 ∧
    (60 : Int) ≠ ProxyConfig.fallbackDefaultTimeout
      ⟨[], 60, -1, [], [400], "h", "https"⟩ := by
  refine ⟨rfl, by decide, rfl, by decide⟩

/-- Claim C5 (amended: the fallback-wide default applies when it is strictly
positive, not merely nonzero): attempt index 0 always resolves to the global
default regardless of the fallback timeout map; attempt index ≥ 1 resolves
to the per-model override when present, else to the fallback-wide default
when positive, else to the global default. -/
theorem timeout_resolution (cfg : ProxyConfig) (idx : Nat) (model : String) :
    (idx = 0 → timeoutForAttempt cfg idx model = cfg.defaultTimeout) ∧
    (idx ≠ 0 → ∀ t, lookupTimeout cfg.fallbackTimeouts model = some t →
      timeoutForAttempt cfg idx model = t) ∧
    (idx ≠ 0 → lookupTimeout cfg.fallbackTimeouts model = none →
      0 < cfg.fallbackDefaultTimeout →
      timeoutForAttempt cfg idx model = cfg.fallbackDefaultTimeout) ∧
    (idx ≠ 0 → lookupTimeout cfg.fallbackTimeouts model = none →
      ¬0 < cfg.fallbackDefaultTimeout →
      timeoutForAttempt cfg idx model = cfg.defaultTimeout) := by
  refine ⟨fun h0 => by simp [timeoutForAttempt, h0], ?_, ?_, ?_⟩
  · intro h0 t hl
    simp [timeoutForAttempt, h0, hl]
  · intro h0 hl hpos
    simp [timeoutForAttempt, h0, hl, hpos]
  · intro h0 hl hpos
    simp [timeoutForAttempt, h0, hl, hpos]

/-- Witness for C5: a configuration with global default 60, fallback-wide
default 7 and a per-model override of 5 for "m2", exercising all four
branches of the resolution. -/
theorem timeout_resolution_witness :
    timeoutForAttempt ⟨[], 60, 7, [("m2", 5)], [400], "h", "https"⟩ 0 "m2" = 60 ∧
    timeoutForAttempt ⟨[], 60, 7, [("m2", 5)], [400], "h", "https"⟩ 1 "m2" = 5 ∧
    timeoutForAttempt ⟨[], 60, 7, [("m2", 5)], [400], "h", "https"⟩ 1 "m3" = 7 ∧
    timeoutForAttempt ⟨[], 60, 0, [("m2", 5)], [400], "h", "https"⟩ 1 "m3" = 60 := by
  refine ⟨(timeout_resolution _ 0 "m2").1 rfl, ?_, ?_, ?_⟩
  · exact (timeout_resolution ⟨[], 60, 7, [("m2", 5)], [400], "h", "https"⟩ 1
      "m2").2.1 (by decide) 5 rfl
  · exact (timeout_resolution ⟨[], 60, 7, [("m2", 5)], [400], "h", "https"⟩ 1
      "m3").2.2.1 (by decide) rfl (by decide)
  · exact (timeout_resolution ⟨[], 60, 0, [("m2", 5)], [400], "h", "https"⟩ 1
      "m3").2.2.2 (by decide) rfl (by decide)

theorem foldl_addModel_eq_dedup (xs : List String) (seen out : List String) :
    (xs.foldl addModel (seen, out)).2 =
      out ++ dedupFirstAux seen ((xs.map trimSpace).filter (fun s => s ≠ "")) := by
  induction xs generalizing seen out with
  | nil => simp [dedupFirstAux]
  | cons x xs ih =>
    rw [List.foldl_cons, List.map_cons]
    by_cases h1 : trimSpace x = ""
    · rw [show addModel (seen, out) x = (seen, out) by simp [addModel, h1]]
      rw [ih]
      simp [h1]
    · by_cases h2 : trimSpace x ∈ seen
      · rw [show addModel (seen, out) x = (seen, out) by simp [addModel, h1, h2]]
        rw [ih]
        simp [List.filter_cons, h1, dedupFirstAux, h2]
      · rw [show addModel (seen, out) x =
            (trimSpace x :: seen, out ++ [trimSpace x]) by simp [addModel, h1, h2]]
        rw [ih]
        simp [List.filter_cons, h1, dedupFirstAux, h2]

/-- Claim C6: the planner `buildAttemptModels` computes exactly the spec-described
sequence — primary then fallbacks, each entry whitespace-trimmed, empties
dropped, case-sensitive first-occurrence deduplication (`attemptPlanSpec`,
written from the spec's words) — and on the spec's concrete example, primary
"gpt-4o" with fallbacks ["gpt-4o", "gpt-4o-mini", "gpt-4o"] yields
["gpt-4o", "gpt-4o-mini"].  Both definitions are pure functions, so the
planner has no side effects. -/
theorem attemptPlanner_matches_spec :
    (∀ (primary : String) (fallbacks : List String),
      buildAttemptModels primary fallbacks = attemptPlanSpec primary fallbacks) ∧
    buildAttemptModels "gpt-4o" ["gpt-4o", "gpt-4o-mini", "gpt-4o"] =
      ["gpt-4o", "gpt-4o-mini"] := by
  constructor
  · intro primary fallbacks
    unfold buildAttemptModels attemptPlanSpec
    rw [foldl_addModel_eq_dedup]
    simp
  · decide

theorem writeResponse_header_get_other (c : CachedResponse) (k : String)
    (h1 : k ≠ "Content-Length") :
    headerGet (writeResponse c).header k =
      if k ∈ hopByHopHeaders then none
      else headerGet (cloneHeader c.header) k := by
  show headerGet (if c.body.length > 0
      then headerSet (headerDel (stripHopByHopHeaders (copyHeaders [] c.header))
        "Content-Length") "Content-Length" [Nat.repr c.body.length]
      else headerDel (stripHopByHopHeaders (copyHeaders [] c.header))
        "Content-Length") k = _
  by_cases hb : c.body.length > 0
  · rw [if_pos hb, headerGet_set_ne _ _ _ _ h1, headerGet_del_ne _ _ _ h1,
      headerGet_strip]
    rfl
  · rw [if_neg hb, headerGet_del_ne _ _ _ h1, headerGet_strip]
    rfl

/-- Claim C9: the emitter `writeResponse` mirrors the buffered status and body to the caller,
strips hop-by-hop headers, removes any prior `Content-Length` and recomputes
it as the buffered body's byte length — omitting the header entirely when
the body is empty — and leaves every other header as cached (stated for
headers with unique keys, as Go's `http.Header` map guarantees). -/
theorem writeResponse_emitter_contract (c : CachedResponse)
    (hnd : (headerKeys c.header).Nodup) :
    (writeResponse c).status = c.status ∧
    (writeResponse c).body = c.body ∧
    (c.body = [] →
      headerGet (writeResponse c).header "Content-Length" = none) ∧
    (c.body ≠ [] →
      headerGet (writeResponse c).header "Content-Length" =
        some [Nat.repr c.body.length]) ∧
    (∀ k ∈ hopByHopHeaders, headerGet (writeResponse c).header k = none) ∧
    (∀ k, k ∉ hopByHopHeaders → k ≠ "Content-Length" →
      headerGet (writeResponse c).header k = headerGet c.header k) := by
  refine ⟨rfl, rfl, ?_, ?_, ?_, ?_⟩
  · intro hb
    show headerGet (if c.body.length > 0 then _ else _) "Content-Length" = none
    rw [if_neg (by simp [hb]), headerGet_del_self]
  · intro hb
    show headerGet (if c.body.length > 0 then _ else _) "Content-Length" = _
    rw [if_pos (by simpa [List.length_pos] using hb), headerGet_set_self]
  · intro k hk
    fin_cases hk <;>
      rw [writeResponse_header_get_other _ _ (by decide)] <;>
      simp [hopByHopHeaders]
  · intro k hk hcl
    rw [writeResponse_header_get_other _ _ hcl, if_neg hk,
      headerGet_cloneHeader _ _ hnd]

/-- Witness for C9: a cached 502 with a `Connection` header, a stale
`Content-Length` and a two-byte body is replayed with the hop-by-hop header
gone and `Content-Length` recomputed to 2. -/
theorem writeResponse_emitter_contract_witness :
    (writeResponse ⟨502, [("Connection", ["close"]), ("Content-Length", ["99"]),
      ("X-A", ["v"])], [10, 20]⟩).status = 502 ∧
    (writeResponse ⟨502, [("Connection", ["close"]), ("Content-Length", ["99"]),
      ("X-A", ["v"])], [10, 20]⟩).body = [10, 20] ∧
    headerGet (writeResponse ⟨502, [("Connection", ["close"]),
      ("Content-Length", ["99"]), ("X-A", ["v"])], [10, 20]⟩).header
      "Content-Length" = some [Nat.repr 2] ∧
    headerGet (writeResponse ⟨502, [("Connection", ["close"]),
      ("Content-Length", ["99"]), ("X-A", ["v"])], [10, 20]⟩).header
      "Connection" = none ∧
    headerGet (writeResponse ⟨502, [("Connection", ["close"]),
      ("Content-Length", ["99"]), ("X-A", ["v"])], [10, 20]⟩).header
      "X-A" = some ["v"] := by
  have h := writeResponse_emitter_contract
    ⟨502, [("Connection", ["close"]), ("Content-Length", ["99"]),
      ("X-A", ["v"])], [10, 20]⟩ (by decide)
  exact ⟨h.1, h.2.1, h.2.2.2.1 (by decide),
    h.2.2.2.2.1 "Connection" (by decide),
    (h.2.2.2.2.2 "X-A" (by decide) (by decide)).trans (by decide)⟩

theorem outboundHeader_get_other (cfg : ProxyConfig) (orig : InboundRequest)
    (k : String) (h1 : k ≠ "X-Forwarded-Proto") (h2 : k ≠ "X-Forwarded-Host")
    (h3 : k ≠ "Accept-Encoding") :
    headerGet (outboundHeader cfg orig) k =
      if k ∈ hopByHopHeaders then none
      else headerGet (cloneHeader orig.header) k := by
  unfold outboundHeader
  rw [headerGet_set_ne _ _ _ _ h1, headerGet_set_ne _ _ _ _ h2,
    headerGet_del_ne _ _ _ h3, headerGet_strip]

/-- Counterexample for C2 as frozen: for an inbound request that reached the
proxy over plain "http" towards an upstream whose configured base URL scheme
is "https", the outbound `X-Forwarded-Proto` is "https" — the configured
target URL's scheme — and not the inbound request's protocol; the source
sets it from `cfg.targetURL.Scheme` and never reads the inbound protocol. -/
theorem xForwardedProto_not_inbound_counterexample :
    headerGet (outboundHeader ⟨[], 60, 0, [], [400], "api.example", "https"⟩
      ⟨[], "client.example", "http"⟩) "X-Forwarded-Proto" = some ["https"] ∧
    InboundRequest.proto ⟨[], "client.example", "http"⟩ = "http" ∧
    some ["https"] ≠ some [InboundRequest.proto ⟨[], "client.example", "http"⟩] := by
  refine ⟨rfl, rfl, by decide⟩

/-- Claim C2 (amended: `X-Forwarded-Proto` carries the configured target URL's
scheme, not the inbound protocol): the outbound headers are the inbound
headers minus the hop-by-hop set and `Accept-Encoding`, with
`X-Forwarded-Host` set to the inbound request's host, `X-Forwarded-Proto`
set to the target scheme, and the outbound `Host` set to the upstream
authority.  All other headers pass through unmodified (stated for inbound
headers with unique keys, as Go's `http.Header` map guarantees). -/
theorem outbound_request_rewrite (cfg : ProxyConfig) (orig : InboundRequest)
    (hnd : (headerKeys orig.header).Nodup) :
    headerGet (outboundHeader cfg orig) "X-Forwarded-Host" = some [orig.host] ∧
    headerGet (outboundHeader cfg orig) "X-Forwarded-Proto" =
      some [cfg.targetScheme] ∧
    outboundHost cfg orig = cfg.targetHost ∧
    (∀ k ∈ hopByHopHeaders, headerGet (outboundHeader cfg orig) k = none) ∧
    headerGet (outboundHeader cfg orig) "Accept-Encoding" = none ∧
    (∀ k, k ∉ hopByHopHeaders → k ≠ "Accept-Encoding" →
      k ≠ "X-Forwarded-Host" → k ≠ "X-Forwarded-Proto" →
      headerGet (outboundHeader cfg orig) k = headerGet orig.header k) := by
  refine ⟨?_, ?_, rfl, ?_, ?_, ?_⟩
  · unfold outboundHeader
    rw [headerGet_set_ne _ _ _ _ (by decide), headerGet_set_self]
  · unfold outboundHeader
    rw [headerGet_set_self]
  · intro k hk
    fin_cases hk <;>
      rw [outboundHeader_get_other _ _ _ (by decide) (by decide) (by decide)] <;>
      simp [hopByHopHeaders]
  · unfold outboundHeader
    rw [headerGet_set_ne _ _ _ _ (by decide),
      headerGet_set_ne _ _ _ _ (by decide), headerGet_del_self]
  · intro k hk hae hxh hxp
    rw [outboundHeader_get_other _ _ _ hxp hxh hae, if_neg hk,
      headerGet_cloneHeader _ _ hnd]

/-- Witness for C2: a concrete inbound request with a `Connection` header,
an `Accept-Encoding` header and an `Authorization` header, forwarded towards
an "https" target: the hop-by-hop and `Accept-Encoding` headers are gone,
`Authorization` passes through, and the forwarding headers are set. -/
theorem outbound_request_rewrite_witness :
    headerGet (outboundHeader ⟨[], 60, 0, [], [400], "api.example", "https"⟩
      ⟨[("Connection", ["keep-alive"]), ("Accept-Encoding", ["gzip"]),
        ("Authorization", ["Bearer x"])], "client.example", "http"⟩)
      "X-Forwarded-Host" = some ["client.example"] ∧
    headerGet (outboundHeader ⟨[], 60, 0, [], [400], "api.example", "https"⟩
      ⟨[("Connection", ["keep-alive"]), ("Accept-Encoding", ["gzip"]),
        ("Authorization", ["Bearer x"])], "client.example", "http"⟩)
      "X-Forwarded-Proto" = some ["https"] ∧
    outboundHost ⟨[], 60, 0, [], [400], "api.example", "https"⟩
      ⟨[("Connection", ["keep-alive"]), ("Accept-Encoding", ["gzip"]),
        ("Authorization", ["Bearer x"])], "client.example", "http"⟩ =
      "api.example" ∧
    headerGet (outboundHeader ⟨[], 60, 0, [], [400], "api.example", "https"⟩
      ⟨[("Connection", ["keep-alive"]), ("Accept-Encoding", ["gzip"]),
        ("Authorization", ["Bearer x"])], "client.example", "http"⟩)
      "Connection" = none ∧
    headerGet (outboundHeader ⟨[], 60, 0, [], [400], "api.example", "https"⟩
      ⟨[("Connection", ["keep-alive"]), ("Accept-Encoding", ["gzip"]),
        ("Authorization", ["Bearer x"])], "client.example", "http"⟩)
      "Accept-Encoding" = none ∧
    headerGet (outboundHeader ⟨[], 60, 0, [], [400], "api.example", "https"⟩
      ⟨[("Connection", ["keep-alive"]), ("Accept-Encoding", ["gzip"]),
        ("Authorization", ["Bearer x"])], "client.example", "http"⟩)
      "Authorization" = some ["Bearer x"] := by
  have h := outbound_request_rewrite ⟨[], 60, 0, [], [400], "api.example", "https"⟩
    ⟨[("Connection", ["keep-alive"]), ("Accept-Encoding", ["gzip"]),
      ("Authorization", ["Bearer x"])], "client.example", "http"⟩ (by decide)
  exact ⟨h.1, h.2.1, h.2.2.1, h.2.2.2.1 "Connection" (by decide), h.2.2.2.2.1,
    (h.2.2.2.2.2 "Authorization" (by decide) (by decide) (by decide)
      (by decide)).trans (by decide)⟩

/-- Counterexample for C1 as frozen: an inbound request with an empty body
is answered with status 503 (`StatusServiceUnavailable`,
`{"error": "empty request body"}`), not 400 as the claim states; only the
unreadable-body and missing-model conditions use 400. -/
theorem emptyBody_rejected_503_counterexample :
    (handleChatCompletion ⟨[], 60, 0, [], [400], "h", "https"⟩ (fun _ => none)
      (.bytes []) (fun _ => ⟨false, .transportErr⟩)).1 =
      .jsonError 503 "empty request body" ∧
    (503 : Nat) ≠ 400 := by
  refine ⟨rfl, by decide⟩

/-- Claim C1 (amended: the status for an empty or unparseable body is 503, not
400): a request whose body is absent, empty, or not parseable as JSON is
answered immediately with HTTP 503 carrying a JSON object with a single
`error` string field, and no upstream dispatch is made (the dispatch count
is 0). -/
theorem malformed_body_rejected (cfg : ProxyConfig)
    (parse : List Nat → Option Payload) (attempts : Nat → AttemptInput)
    (bs : List Nat) :
    handleChatCompletion cfg parse .noBody attempts =
      (.jsonError 503 "empty request body", 0) ∧
    handleChatCompletion cfg parse (.bytes []) attempts =
      (.jsonError 503 "empty request body", 0) ∧
    (bs ≠ [] → parse bs = none →
      handleChatCompletion cfg parse (.bytes bs) attempts =
        (.jsonError 503 "invalid json body", 0)) := by
  refine ⟨rfl, rfl, ?_⟩
  intro hbs hparse
  have hlen : ¬bs.length = 0 := by simpa [List.length_eq_zero] using hbs
  simp [handleChatCompletion, readRequestPayload, hlen, hparse]

/-- Witness for C1: the body bytes `[123]` (the single character `{`) with a
parse oracle that rejects them are answered with the 503 invalid-json
response and zero dispatches. -/
theorem malformed_body_rejected_witness :
    handleChatCompletion ⟨[], 60, 0, [], [400], "h", "https"⟩ (fun _ => none)
      (.bytes [123]) (fun _ => ⟨false, .transportErr⟩) =
      (.jsonError 503 "invalid json body", 0) :=
  (malformed_body_rejected ⟨[], 60, 0, [], [400], "h", "https"⟩ (fun _ => none)
    (fun _ => ⟨false, .transportErr⟩) [123]).2.2 (by decide) rfl

theorem foldl_addModel_out_extends (xs : List String) (seen out : List String) :
    ∃ tail, (xs.foldl addModel (seen, out)).2 = out ++ tail := by
  induction xs generalizing seen out with
  | nil => exact ⟨[], by simp⟩
  | cons x xs ih =>
    rw [List.foldl_cons]
    by_cases h1 : trimSpace x = ""
    · rw [show addModel (seen, out) x = (seen, out) by simp [addModel, h1]]
      exact ih seen out
    · by_cases h2 : trimSpace x ∈ seen
      · rw [show addModel (seen, out) x = (seen, out) by simp [addModel, h1, h2]]
        exact ih seen out
      · rw [show addModel (seen, out) x =
            (trimSpace x :: seen, out ++ [trimSpace x]) by simp [addModel, h1, h2]]
        obtain ⟨tail, ht⟩ := ih (trimSpace x :: seen) (out ++ [trimSpace x])
        exact ⟨trimSpace x :: tail, by rw [ht]; simp⟩

theorem buildAttemptModels_trimmed_head (m : String) (fbs : List String)
    (hm : trimSpace m = m) (hne : m ≠ "") :
    ∃ tail, buildAttemptModels m fbs = m :: tail := by
  unfold buildAttemptModels
  rw [List.foldl_cons]
  rw [show addModel ([], []) m = ([m], [m]) by simp [addModel, hm, hne]]
  obtain ⟨tail, ht⟩ := foldl_addModel_out_extends fbs [m] [m]
  exact ⟨tail, by simp [ht]⟩

theorem trimSpace_empty : trimSpace "" = "" := by decide

theorem extractModelName_trimmed (p : Payload) :
    trimSpace (extractModelName p) = extractModelName p := by
  unfold extractModelName
  cases hg : payloadGet p "model" with
  | none => exact trimSpace_empty
  | some v =>
    cases v with
    | str s => exact trimSpace_idem s
    | jbool b => exact trimSpace_empty
    | num n => exact trimSpace_empty
    | other => exact trimSpace_empty

theorem readRequestPayload_error_msgs (parse : List Nat → Option Payload)
    (body : BodyRead) (e : Nat × String)
    (h : readRequestPayload parse body = .error e) :
    e = (503, "empty request body") ∨ e = (400, "invalid request body") ∨
      e = (503, "invalid json body") := by
  cases body with
  | noBody =>
    simp [readRequestPayload] at h
    exact Or.inl h.symm
  | readErr =>
    simp [readRequestPayload] at h
    exact Or.inr (Or.inl h.symm)
  | bytes bs =>
    simp only [readRequestPayload] at h
    by_cases hl : bs.length = 0
    · rw [if_pos hl] at h
      injection h with h
      exact Or.inl h.symm
    · rw [if_neg hl] at h
      cases hp : parse bs with
      | none =>
        rw [hp] at h
        injection h with h
        exact Or.inr (Or.inr h.symm)
      | some p =>
        rw [hp] at h
        cases h

theorem attemptLoop_ne_noModel (noRetry : List Nat) (stream : Bool)
    (as : List AttemptInput) (last : Option CachedResponse) :
    (attemptLoop noRetry stream as last).1 ≠ .jsonError 400 "no model available" := by
  induction as generalizing last with
  | nil =>
    cases last with
    | some c => simp [attemptLoop]
    | none => simp [attemptLoop]
  | cons a rest ih =>
    obtain ⟨mf, res⟩ := a
    cases mf with
    | true => simp [attemptLoop]
    | false =>
      cases res with
      | canceledErr => simp [attemptLoop]
      | transportErr => simpa [attemptLoop] using ih last
      | resp r =>
        cases hst : stream <;> cases hsc : isSuccessStatus r.status <;>
          cases hre : r.readErr <;>
          cases hnr : isNoRetryStatus r.status noRetry <;>
          simp_all [attemptLoop, ih]

/-- Claim C10: a payload whose extracted model name is non-empty (the extractor
already trims whitespace) always yields a non-empty planned attempt list
whose head is exactly that model name; consequently the handler's
"no model available" 400 branch is unreachable: no run of the handler, on
any body and any upstream behaviour, produces that response. -/
theorem nonempty_model_plan_nonempty :
    (∀ (p : Payload) (fbs : List String), extractModelName p ≠ "" →
      buildAttemptModels (extractModelName p) fbs ≠ [] ∧
      (buildAttemptModels (extractModelName p) fbs).head? =
        some (extractModelName p)) ∧
    (∀ (cfg : ProxyConfig) (parse : List Nat → Option Payload) (body : BodyRead)
      (attempts : Nat → AttemptInput),
      (handleChatCompletion cfg parse body attempts).1 ≠
        .jsonError 400 "no model available") := by
  constructor
  · intro p fbs hm
    obtain ⟨tail, ht⟩ := buildAttemptModels_trimmed_head (extractModelName p) fbs
      (extractModelName_trimmed p) hm
    rw [ht]
    simp
  · intro cfg parse body attempts
    unfold handleChatCompletion
    cases hr : readRequestPayload parse body with
    | error e =>
      rcases readRequestPayload_error_msgs parse body e hr with he | he | he <;>
        subst he <;> simp
    | ok payload =>
      by_cases hm : extractModelName payload = ""
      · simp [hm]
      · obtain ⟨tail, ht⟩ := buildAttemptModels_trimmed_head
          (extractModelName payload) cfg.fallbackModels
          (extractModelName_trimmed payload) hm
        simp only [hm, if_false, ht]
        rw [if_neg (by simp)]
        exact attemptLoop_ne_noModel cfg.noRetryStatuses
          (isStreamRequest payload) _ none

/-- Witness for C10: the payload `{"model": " m1 "}` extracts to "m1", and
the planner over fallbacks ["m2"] yields a list headed by "m1"; the handler
consequence holds for a concrete run as well. -/
theorem nonempty_model_plan_nonempty_witness :
    buildAttemptModels (extractModelName [("model", .str " m1 ")]) ["m2"] ≠ [] ∧
    (buildAttemptModels (extractModelName [("model", .str " m1 ")]) ["m2"]).head? =
      some (extractModelName [("model", .str " m1 ")]) ∧
    (handleChatCompletion ⟨["m2"], 60, 0, [], [400], "h", "https"⟩
      (fun _ => some [("model", .str " m1 ")]) (.bytes [123])
      (fun _ => ⟨false, .transportErr⟩)).1 ≠
      .jsonError 400 "no model available" := by
  have h1 := nonempty_model_plan_nonempty.1 [("model", .str " m1 ")] ["m2"]
    (by decide)
  have h2 := nonempty_model_plan_nonempty.2 ⟨["m2"], 60, 0, [], [400], "h", "https"⟩
    (fun _ => some [("model", .str " m1 ")]) (.bytes [123])
    (fun _ => ⟨false, .transportErr⟩)
  exact ⟨h1.1, h1.2, h2⟩

end LlmRouter
